import Mathlib

/-!
# Verification of the smart-cv-scan lead-capture form

Shallow embedding of the client-side form logic of the smart-cv-scan
repository (`src/components/CVAnalysisForm.tsx` and
`src/components/ThemeToggle.tsx`) together with proofs of the stated
properties of its validator, file-picker gate, submission life cycle and
theme toggle.

Strings are modelled as lists of characters (`Str`), so that the
JavaScript string operations used by the code (`trim`, `length`, regex
test, equality) become explicit executable functions on lists.
-/

/-- JavaScript strings, modelled as lists of characters. -/
abbrev Str := List Char

/-- The character class `\s` of JavaScript regular expressions, which is
also the set of characters removed by `String.prototype.trim`:
whitespace and line-terminator characters. -/
def jsWhitespace (c : Char) : Bool :=
  c == ' ' || c == '\t' || c == '\n' || c == '\r' ||
  c == '\x0b' || c == '\x0c' || c == '\u00a0' || c == '\u1680' ||
  (decide ('\u2000' ≤ c) && decide (c ≤ '\u200a')) ||
  c == '\u2028' || c == '\u2029' || c == '\u202f' ||
  c == '\u205f' || c == '\u3000' || c == '\ufeff'

/-- `String.prototype.trim`: drop whitespace from both ends. -/
def jsTrim (s : Str) : Str :=
  ((s.dropWhile jsWhitespace).reverse.dropWhile jsWhitespace).reverse

/-- A character admitted by the class `[^\s@]` of the email regex:
neither whitespace nor `@`. -/
def isEmailChar (c : Char) : Bool :=
  !jsWhitespace c && c != '@'

/-- Splitting a string at the first occurrence of the character `c`:
`some (l, r)` with `s = l ++ c :: r` and `c ∉ l` when `c` occurs, `none`
otherwise. -/
def splitAtFirst (c : Char) : Str → Option (Str × Str)
  | [] => none
  | x :: xs =>
    if x = c then some ([], xs)
    else
      match splitAtFirst c xs with
      | none => none
      | some (l, r) => some (x :: l, r)

/-- Whether the string `t` has a `.` at an interior position, i.e. with at
least one character strictly before it and one strictly after it. -/
def interiorDot (t : Str) : Bool :=
  ((t.drop 1).dropLast).contains '.'

/-- Embedding of the email regex test of `validateForm`
(`/^[^\s@]+@[^\s@]+\.[^\s@]+$/.test(email)`, CVAnalysisForm.tsx line 38).
The anchored pattern matches exactly the strings of the form
`local ++ "@" ++ middle ++ "." ++ rest` where `local`, `middle` and
`rest` are nonempty and consist of `[^\s@]` characters.  Because `@` is
excluded from every character class, a matching string contains exactly
one `@`, namely its first one; `middle` and `rest` may themselves
contain further dots, so the `.` of the pattern may stand at any
interior position of the part after the `@`.  The test therefore splits
the string at its first `@` and checks the parts. -/
def emailRegexTest (s : Str) : Bool :=
  match splitAtFirst '@' s with
  | none => false
  | some (lo, rest) =>
    decide (lo ≠ []) && lo.all isEmailChar &&
      rest.all isEmailChar && interiorDot rest

/-- The shape demanded of an email address by the specification, in its
own words: one or more non-space/non-`@` characters, then `@`, then one
or more non-space/non-`@` characters, then `.`, then one or more
non-space/non-`@` characters. -/
def EmailShape (s : Str) : Prop :=
  ∃ l m r : Str, l ≠ [] ∧ m ≠ [] ∧ r ≠ [] ∧
    (∀ c ∈ l, isEmailChar c = true) ∧
    (∀ c ∈ m, isEmailChar c = true) ∧
    (∀ c ∈ r, isEmailChar c = true) ∧
    s = l ++ '@' :: (m ++ '.' :: r)

/-- A selected file as the form sees it: a file name and a declared MIME
type (`File.name` and `File.type` in the browser). -/
structure UploadFile where
  fileName : Str
  mimeType : Str
deriving DecidableEq

/-- The PDF MIME type `application/pdf`. -/
def pdfMime : Str := "application/pdf".data

/-- The `formData` state of `CVAnalysisForm`: the four captured fields
(`name`, `email`, `jobDescription`, `cv`). -/
structure FormFields where
  name : Str
  email : Str
  jobDescription : Str
  cv : Option UploadFile
deriving DecidableEq

/-- The initial (and reset) value of `formData`: every text field empty
and no file selected. -/
def emptyFormFields : FormFields :=
  { name := [], email := [], jobDescription := [], cv := none }

/-- The `errors` state of `CVAnalysisForm`.  The JavaScript object
`{ [key: string]: string }` only ever receives the keys `name`, `email`,
`jobDescription` and `cv`, so it is modelled as one optional message per
field; `none` means the key is absent, `some []` models the empty-string
entry written by `handleFileChange` to clear the file error. -/
structure ValidationErrors where
  name : Option Str
  email : Option Str
  jobDescription : Option Str
  cv : Option Str
deriving DecidableEq

/-- The empty errors object `{}`. -/
def noErrors : ValidationErrors :=
  { name := none, email := none, jobDescription := none, cv := none }

/-- `Object.keys(newErrors).length === 0`: no key is present. -/
def ValidationErrors.isEmpty (e : ValidationErrors) : Bool :=
  e.name.isNone && e.email.isNone && e.jobDescription.isNone && e.cv.isNone

/-- Whether a per-field entry is displayed by the UI: the entry is
rendered only when it is truthy, i.e. present and a nonempty string
(`{errors.cv && <p>...</p>}`). -/
def displayedError (e : Option Str) : Bool :=
  match e with
  | none => false
  | some m => !m.isEmpty

/-- `validateForm` of CVAnalysisForm.tsx (lines 29-56), the pure part:
the fresh `newErrors` object built from the current field values.
Each field is checked exactly as in the source:
- `name`: required if blank after trimming;
- `email`: required if blank after trimming, else must pass the regex
  test on the untrimmed value;
- `jobDescription`: required if blank after trimming, else its untrimmed
  length must be at least 10;
- `cv`: required, and its declared MIME type must be `application/pdf`. -/
def validateForm (f : FormFields) : ValidationErrors :=
  { name :=
      if jsTrim f.name = [] then some "Name is required".data else none
    email :=
      if jsTrim f.email = [] then some "Email is required".data
      else if emailRegexTest f.email = false then
        some "Please enter a valid email address".data
      else none
    jobDescription :=
      if jsTrim f.jobDescription = [] then
        some "Job description is required".data
      else if f.jobDescription.length < 10 then
        some "Job description must be at least 10 characters".data
      else none
    cv :=
      match f.cv with
      | none => some "CV file is required".data
      | some file =>
        if file.mimeType ≠ pdfMime then
          some "Only PDF files are allowed".data
        else none }

/-- The local React state of one `CVAnalysisForm` instance together with
the parent's `isFormOpen` flag (passed down as the `isOpen` prop; the
component renders nothing when it is false, but its state survives). -/
structure ComponentState where
  formData : FormFields
  errors : ValidationErrors
  isSubmitting : Bool
  analysisComplete : Bool
  showCelebration : Bool
  isOpen : Bool
deriving DecidableEq

/-- `handleFileChange` of CVAnalysisForm.tsx (lines 119-129): when a file
is selected, store it and clear the file error if its declared MIME type
is `application/pdf`, otherwise only set the file error; when no file is
selected, do nothing. -/
def handleFileChange (s : ComponentState) (file : Option UploadFile) :
    ComponentState :=
  match file with
  | none => s
  | some f =>
    if f.mimeType = pdfMime then
      { s with
        formData := { s.formData with cv := some f },
        errors := { s.errors with cv := some [] } }
    else
      { s with
        errors := { s.errors with cv := some "Only PDF files are allowed".data } }

/-- `toggleTheme` of ThemeToggle.tsx (lines 19-21):
`theme === 'light' ? 'dark' : 'light'`. -/
def toggleTheme (theme : Str) : Str :=
  if theme = "light".data then "dark".data else "light".data

/-- Toast notifications emitted through `useToast`: the celebratory
"Analysis Complete!" toast on success, the destructive "Error" toast on
failure. -/
inductive ToastKind where
  | success
  | failure
deriving DecidableEq

/-- The events that drive the form: the user edits a text field, selects
a file, submits, the network call resolves or rejects, the user closes
the modal through the close button or the backdrop, dismisses the
success view through its reset button, or reopens the modal. -/
inductive FormEvent where
  | editName (v : Str)
  | editEmail (v : Str)
  | editJob (v : Str)
  | fileSelect (f : Option UploadFile)
  | submit
  | respondOk
  | respondFail
  | closeButton
  | backdropClose
  | resetClick
  | reopen
deriving DecidableEq

/-- The whole observed system: the component state, the number of POST
requests currently in flight, the total number of POST requests issued
to the webhook, and the toasts shown so far. -/
structure SystemState where
  form : ComponentState
  inFlight : Nat
  postCount : Nat
  toasts : List ToastKind
deriving DecidableEq

/-- Whether the form view (the four inputs and the submit button) is
rendered: the modal is open, the celebration view is not shown
(`analysisComplete && showCelebration`), and the spinner view is not
shown (`isSubmitting`). -/
def formVisible (s : ComponentState) : Bool :=
  s.isOpen && !(s.analysisComplete && s.showCelebration) && !s.isSubmitting

/-- One step of the form's event-driven execution, read off
CVAnalysisForm.tsx and the parent page:
- edits and file selection act only while the form view is rendered;
- `submit` runs `handleSubmit` (lines 58-117) up to its suspension
  point: it stores the freshly computed errors, and only when they are
  empty sets `isSubmitting`, issues the POST and counts it; the submit
  button is `disabled={isSubmitting}`;
- `respondOk` resolves an in-flight call with a 2xx status: the timeout
  then sets `analysisComplete`/`showCelebration` and shows the success
  toast (`isSubmitting` is never cleared on this path);
- `respondFail` resolves it with a non-2xx status or a network fault:
  the catch block shows the failure toast and clears `isSubmitting`;
- `closeButton` is rendered only when neither submitting nor complete
  and calls `onClose`, which merely clears `isOpen`;
- `backdropClose` is the overlay click, wired to `onClose` only while
  not submitting;
- `resetClick` is the "Submit Another CV" button of the celebration
  view, which runs `resetForm` (lines 131-138);
- `reopen` is the parent's "Start Your Analysis" button setting
  `isFormOpen` again. -/
def step (s : SystemState) (e : FormEvent) : SystemState :=
  match e with
  | .editName v =>
    if formVisible s.form then
      { s with form := { s.form with formData := { s.form.formData with name := v } } }
    else s
  | .editEmail v =>
    if formVisible s.form then
      { s with form := { s.form with formData := { s.form.formData with email := v } } }
    else s
  | .editJob v =>
    if formVisible s.form then
      { s with form := { s.form with formData := { s.form.formData with jobDescription := v } } }
    else s
  | .fileSelect f =>
    if formVisible s.form then
      { s with form := handleFileChange s.form f }
    else s
  | .submit =>
    if formVisible s.form && !s.form.isSubmitting then
      let newErrors := validateForm s.form.formData
      if newErrors.isEmpty then
        { s with
          form := { s.form with errors := newErrors, isSubmitting := true },
          inFlight := s.inFlight + 1,
          postCount := s.postCount + 1 }
      else
        { s with form := { s.form with errors := newErrors } }
    else s
  | .respondOk =>
    if 0 < s.inFlight then
      { s with
        form := { s.form with analysisComplete := true, showCelebration := true },
        inFlight := s.inFlight - 1,
        toasts := s.toasts ++ [ToastKind.success] }
    else s
  | .respondFail =>
    if 0 < s.inFlight then
      { s with
        form := { s.form with isSubmitting := false },
        inFlight := s.inFlight - 1,
        toasts := s.toasts ++ [ToastKind.failure] }
    else s
  | .closeButton =>
    if s.form.isOpen && !s.form.isSubmitting && !s.form.analysisComplete then
      { s with form := { s.form with isOpen := false } }
    else s
  | .backdropClose =>
    if s.form.isOpen && !s.form.isSubmitting then
      { s with form := { s.form with isOpen := false } }
    else s
  | .resetClick =>
    if s.form.isOpen && s.form.analysisComplete && s.form.showCelebration then
      { s with
        form :=
          { formData := emptyFormFields, errors := noErrors,
            isSubmitting := false, analysisComplete := false,
            showCelebration := false, isOpen := false } }
    else s
  | .reopen =>
    { s with form := { s.form with isOpen := true } }

/-- The initial system state: pristine closed form, no request ever
issued. -/
def initState : SystemState :=
  { form :=
      { formData := emptyFormFields, errors := noErrors,
        isSubmitting := false, analysisComplete := false,
        showCelebration := false, isOpen := false },
    inFlight := 0, postCount := 0, toasts := [] }

/-- Running a sequence of events from a state. -/
def runEvents (s : SystemState) (evs : List FormEvent) : SystemState :=
  evs.foldl step s

/-- The states the system can actually be in: those reached from the
initial state by some sequence of events. -/
def Reachable (s : SystemState) : Prop :=
  ∃ evs : List FormEvent, runEvents initState evs = s

/-- A sample PDF upload, used as concrete test input. -/
def oldPdf : UploadFile :=
  { fileName := "old.pdf".data, mimeType := pdfMime }

/-- A sample non-PDF upload (a PNG), used as concrete test input. -/
def pngFile : UploadFile :=
  { fileName := "x.png".data, mimeType := "image/png".data }

/-- A fully valid concrete set of form fields, used as test input. -/
def filledFields : FormFields :=
  { name := "Jo".data, email := "a@b.c".data,
    jobDescription := "abcdefghij".data, cv := some oldPdf }

/-- A concrete open idle component state holding `filledFields`. -/
def filledState : ComponentState :=
  { formData := filledFields, errors := noErrors, isSubmitting := false,
    analysisComplete := false, showCelebration := false, isOpen := true }

/-- A concrete system state: modal open over `filledState`, nothing in
flight yet. -/
def readyState : SystemState :=
  { form := filledState, inFlight := 0, postCount := 0, toasts := [] }

/-- A concrete system state: modal open over an untouched (hence
invalid) form. -/
def openEmptyState : SystemState :=
  { form :=
      { formData := emptyFormFields, errors := noErrors,
        isSubmitting := false, analysisComplete := false,
        showCelebration := false, isOpen := true },
    inFlight := 0, postCount := 0, toasts := [] }

/-- A concrete system state in the celebration view, after a successful
submission. -/
def doneState : SystemState :=
  { form :=
      { formData := filledFields, errors := noErrors, isSubmitting := true,
        analysisComplete := true, showCelebration := true, isOpen := true },
    inFlight := 0, postCount := 1, toasts := [ToastKind.success] }

/-- A concrete event sequence: open the modal, fill in valid data and
submit. -/
def validFillEvents : List FormEvent :=
  [FormEvent.reopen, FormEvent.editName "Jo".data,
    FormEvent.editEmail "a@b.c".data, FormEvent.editJob "abcdefghij".data,
    FormEvent.fileSelect (some oldPdf), FormEvent.submit]

/-- The single-flight invariant of the submission machine: never more
than one POST in flight, none once `isSubmitting` is clear, none once
the analysis is complete, and the two completion flags move together. -/
def singleFlightInv (s : SystemState) : Prop :=
  s.inFlight ≤ 1 ∧
  (s.form.isSubmitting = false → s.inFlight = 0) ∧
  (s.form.analysisComplete = true → s.inFlight = 0) ∧
  s.form.analysisComplete = s.form.showCelebration

theorem splitAtFirst_eq_some_iff {c : Char} {s l r : Str} :
    splitAtFirst c s = some (l, r) ↔ s = l ++ c :: r ∧ c ∉ l := by
  induction s generalizing l with
  | nil =>
    constructor
    · intro h; simp [splitAtFirst] at h
    · rintro ⟨h, -⟩; cases l <;> simp at h
  | cons x xs ih =>
    rw [splitAtFirst]
    by_cases hx : x = c
    · subst hx
      rw [if_pos rfl]
      constructor
      · intro h
        rw [Option.some.injEq, Prod.mk.injEq] at h
        refine ⟨?_, ?_⟩
        · rw [← h.1, ← h.2]; rfl
        · rw [← h.1]; exact List.not_mem_nil x
      · rintro ⟨heq, hnot⟩
        cases l with
        | nil =>
          rw [List.nil_append, List.cons.injEq] at heq
          rw [heq.2]
        | cons a l' =>
          rw [List.cons_append, List.cons.injEq] at heq
          exact absurd (heq.1 ▸ List.mem_cons_self a l') hnot
    · rw [if_neg hx]
      constructor
      · intro h
        cases hsp : splitAtFirst c xs with
        | none => rw [hsp] at h; simp at h
        | some p =>
          obtain ⟨l', r'⟩ := p
          rw [hsp, Option.some.injEq, Prod.mk.injEq] at h
          obtain ⟨hl, hr⟩ := h
          subst hr
          obtain ⟨hs, hnot'⟩ := ih.mp hsp
          subst hl
          subst hs
          refine ⟨rfl, ?_⟩
          intro hmem
          rcases List.mem_cons.mp hmem with h | h
          · exact hx h.symm
          · exact hnot' h
      · rintro ⟨heq, hnot⟩
        cases l with
        | nil =>
          rw [List.nil_append, List.cons.injEq] at heq
          exact absurd heq.1 hx
        | cons a l' =>
          rw [List.cons_append, List.cons.injEq] at heq
          obtain ⟨h1, htail⟩ := heq
          subst h1
          have hnot' : c ∉ l' := fun hm => hnot (List.mem_cons_of_mem _ hm)
          rw [ih.mpr ⟨htail, hnot'⟩]

theorem interiorDot_iff {t : Str} :
    interiorDot t = true ↔ ∃ m r : Str, m ≠ [] ∧ r ≠ [] ∧ t = m ++ '.' :: r := by
  cases t with
  | nil =>
    constructor
    · intro h; simp [interiorDot] at h
    · rintro ⟨m, r, hm, hr, h⟩; cases m <;> simp at h
  | cons x ts =>
    have hunfold : interiorDot (x :: ts) = ts.dropLast.contains '.' := by
      simp [interiorDot]
    rw [hunfold]
    constructor
    · intro h
      have hmem : '.' ∈ ts.dropLast := by
        rw [List.contains_eq_any_beq] at h
        simp only [List.any_eq_true, beq_iff_eq] at h
        obtain ⟨c, hc, rfl⟩ := h
        exact hc
      rcases List.eq_nil_or_concat ts with rfl | ⟨l', b, rfl⟩
      · simp at hmem
      · simp only [List.concat_eq_append] at hmem ⊢
        rw [List.dropLast_concat] at hmem
        obtain ⟨p, q, hpq⟩ := List.mem_iff_append.mp hmem
        subst hpq
        refine ⟨x :: p, q ++ [b], by simp, by simp, ?_⟩
        simp
    · rintro ⟨m, r, hm, hr, hmr⟩
      cases m with
      | nil => exact absurd rfl hm
      | cons a m' =>
        rw [List.cons_append, List.cons.injEq] at hmr
        obtain ⟨-, hts⟩ := hmr
        have : '.' ∈ ts.dropLast := by
          rw [hts, List.dropLast_append_cons]
          refine List.mem_append_right _ ?_
          cases r with
          | nil => exact absurd rfl hr
          | cons b r' => simp
        rw [List.contains_eq_any_beq]
        simp only [List.any_eq_true, beq_iff_eq]
        exact ⟨'.', this, rfl⟩

theorem dropWhile_eq_self_of_forall {p : Char → Bool} {l : Str}
    (h : ∀ c ∈ l, p c = false) : l.dropWhile p = l := by
  cases l with
  | nil => rfl
  | cons x xs =>
    rw [List.dropWhile_cons, h x (List.mem_cons_self x xs)]
    simp

theorem jsTrim_eq_self {s : Str} (h : ∀ c ∈ s, jsWhitespace c = false) :
    jsTrim s = s := by
  unfold jsTrim
  rw [dropWhile_eq_self_of_forall h]
  rw [dropWhile_eq_self_of_forall (fun c hc => h c (List.mem_reverse.mp hc))]
  exact List.reverse_reverse s

theorem jsTrim_length_le (s : Str) : (jsTrim s).length ≤ s.length := by
  unfold jsTrim
  have h1 := (List.dropWhile_sublist (l := s) jsWhitespace).length_le
  have h2 := (List.dropWhile_sublist
    (l := (s.dropWhile jsWhitespace).reverse) jsWhitespace).length_le
  simp only [List.length_reverse] at h1 h2 ⊢
  omega

theorem isEmailChar_not_ws {c : Char} (h : isEmailChar c = true) :
    jsWhitespace c = false := by
  unfold isEmailChar at h
  simp only [Bool.and_eq_true, Bool.not_eq_true'] at h
  exact h.1

theorem emailRegexTest_iff {s : Str} :
    emailRegexTest s = true ↔ EmailShape s := by
  constructor
  · intro h
    unfold emailRegexTest at h
    cases hsp : splitAtFirst '@' s with
    | none => rw [hsp] at h; simp at h
    | some p =>
      obtain ⟨lo, rest⟩ := p
      rw [hsp] at h
      simp only [Bool.and_eq_true, decide_eq_true_eq, List.all_eq_true] at h
      obtain ⟨⟨⟨hlo, hloc⟩, hrc⟩, hdot⟩ := h
      obtain ⟨hs, -⟩ := splitAtFirst_eq_some_iff.mp hsp
      obtain ⟨m, r, hm, hr, hrest⟩ := interiorDot_iff.mp hdot
      refine ⟨lo, m, r, hlo, hm, hr, hloc, ?_, ?_, ?_⟩
      · intro c hc
        exact hrc c (by rw [hrest]; exact List.mem_append_left _ hc)
      · intro c hc
        exact hrc c
          (by rw [hrest]; exact List.mem_append_right _ (List.mem_cons_of_mem _ hc))
      · rw [hs, hrest]
  · rintro ⟨l, m, r, hl, hm, hr, hlc, hmc, hrc, rfl⟩
    unfold emailRegexTest
    have hsp : splitAtFirst '@' (l ++ '@' :: (m ++ '.' :: r)) =
        some (l, m ++ '.' :: r) := by
      apply splitAtFirst_eq_some_iff.mpr
      refine ⟨rfl, ?_⟩
      intro hmem
      have h1 := hlc '@' hmem
      have h2 : isEmailChar '@' = false := by decide
      rw [h2] at h1
      exact Bool.false_ne_true h1
    rw [hsp]
    simp only [Bool.and_eq_true, decide_eq_true_eq, List.all_eq_true]
    refine ⟨⟨⟨hl, hlc⟩, ?_⟩, ?_⟩
    · intro c hc
      rcases List.mem_append.mp hc with h | h
      · exact hmc c h
      · rcases List.mem_cons.mp h with rfl | h
        · decide
        · exact hrc c h
    · exact interiorDot_iff.mpr ⟨m, r, hm, hr, rfl⟩

theorem EmailShape.trim_ne_nil {s : Str} (h : EmailShape s) : jsTrim s ≠ [] := by
  obtain ⟨l, m, r, hl, hm, hr, hlc, hmc, hrc, rfl⟩ := h
  have hall : ∀ c ∈ l ++ '@' :: (m ++ '.' :: r), jsWhitespace c = false := by
    intro c hc
    rcases List.mem_append.mp hc with h | h
    · exact isEmailChar_not_ws (hlc c h)
    · rcases List.mem_cons.mp h with rfl | h
      · decide
      · rcases List.mem_append.mp h with h | h
        · exact isEmailChar_not_ws (hmc c h)
        · rcases List.mem_cons.mp h with rfl | h
          · decide
          · exact isEmailChar_not_ws (hrc c h)
  rw [jsTrim_eq_self hall]
  simp

/-- C1 counterexample: the job-description length check of `validateForm`
runs on the untrimmed string. For the input consisting of the letter `a`
followed by nine spaces the trimmed length is 1 (positive and below 10),
yet the validator reports no length error, because the untrimmed length
is 10. -/
theorem c1_counterexample :
    jsTrim "a         ".data ≠ [] ∧
    0 < (jsTrim "a         ".data).length ∧
    (jsTrim "a         ".data).length < 10 ∧
    (validateForm
      { name := "Jo".data, email := "a@b.c".data,
        jobDescription := "a         ".data,
        cv := some { fileName := "cv.pdf".data, mimeType := pdfMime } }).jobDescription
      ≠ some "Job description must be at least 10 characters".data := by
  decide

/-- C1 (amended): for every `FormFields` whose jobDescription is
non-blank after trimming and whose UNtrimmed length is below 10, the
Validator returns the error "Job description must be at least 10
characters"; for untrimmed length at least 10 it never returns that
error, and in particular for trimmed length at least 10 the
jobDescription field carries no error at all. -/
theorem c1_job_description_length (f : FormFields) :
    (jsTrim f.jobDescription ≠ [] → f.jobDescription.length < 10 →
      (validateForm f).jobDescription =
        some "Job description must be at least 10 characters".data) ∧
    (10 ≤ f.jobDescription.length →
      (validateForm f).jobDescription ≠
        some "Job description must be at least 10 characters".data) ∧
    (10 ≤ (jsTrim f.jobDescription).length →
      (validateForm f).jobDescription = none) := by
  refine ⟨fun h1 h2 => ?_, fun h => ?_, fun h => ?_⟩
  · simp [validateForm, h1, h2]
  · by_cases hb : jsTrim f.jobDescription = []
    · simp only [validateForm, hb, if_pos]
      intro hc
      rw [Option.some.injEq] at hc
      exact absurd hc (by decide)
    · have h2 : ¬ f.jobDescription.length < 10 := by omega
      simp [validateForm, hb, h2]
  · have hb : jsTrim f.jobDescription ≠ [] := by
      intro he; rw [he] at h; simp at h
    have h2 : ¬ f.jobDescription.length < 10 := by
      have := jsTrim_length_le f.jobDescription
      omega
    simp [validateForm, hb, h2]

/-- Witness for the amended C1 at concrete inputs: a 9-character
description is flagged, a 10-character one is not. -/
theorem c1_job_description_length_witness :
    (validateForm
      { name := [], email := [], jobDescription := "short job".data,
        cv := none }).jobDescription =
      some "Job description must be at least 10 characters".data ∧
    (validateForm
      { name := [], email := [], jobDescription := "long enough".data,
        cv := none }).jobDescription = none :=
  ⟨(c1_job_description_length _).1 (by decide) (by decide),
   (c1_job_description_length _).2.2 (by decide)⟩

/-- C6: the Validator flags a blank email as required, flags a non-blank
email that does not match the shape local-part@domain.tld (one or more
non-space/non-@ characters, "@", one or more non-space/non-@ characters,
".", one or more non-space/non-@ characters) as invalid, and leaves the
email field without error exactly on the strings matching that shape. -/
theorem c6_email_validation (f : FormFields) :
    (jsTrim f.email = [] →
      (validateForm f).email = some "Email is required".data) ∧
    (jsTrim f.email ≠ [] → ¬ EmailShape f.email →
      (validateForm f).email = some "Please enter a valid email address".data) ∧
    (EmailShape f.email → (validateForm f).email = none) := by
  refine ⟨fun h => ?_, fun h hns => ?_, fun hs => ?_⟩
  · simp [validateForm, h]
  · have hf : emailRegexTest f.email = false := by
      cases he : emailRegexTest f.email
      · rfl
      · exact absurd (emailRegexTest_iff.mp he) hns
    simp [validateForm, h, hf]
  · have h1 : jsTrim f.email ≠ [] := hs.trim_ne_nil
    have h2 : emailRegexTest f.email = true := emailRegexTest_iff.mpr hs
    simp [validateForm, h1, h2]

/-- Witness for C6 at concrete inputs: a blank email is required,
`a@b` is rejected, `a@b.c` is accepted. -/
theorem c6_email_validation_witness :
    (validateForm
      { name := [], email := "  ".data, jobDescription := [], cv := none }).email =
      some "Email is required".data ∧
    (validateForm
      { name := [], email := "a@b".data, jobDescription := [], cv := none }).email =
      some "Please enter a valid email address".data ∧
    (validateForm
      { name := [], email := "a@b.c".data, jobDescription := [], cv := none }).email =
      none :=
  ⟨(c6_email_validation _).1 (by decide),
   (c6_email_validation _).2.1 (by decide)
     (fun hs => absurd (emailRegexTest_iff.mpr hs) (by decide)),
   (c6_email_validation _).2.2
     ⟨"a".data, "b".data, "c".data, by decide, by decide, by decide,
      by decide, by decide, by decide, by decide⟩⟩

/-- C7: the file-picker gate stores a selected file into the form state
and clears the file error exactly when its declared MIME type is
`application/pdf`; any other file leaves `FormFields.file` unchanged and
sets the error "Only PDF files are allowed". -/
theorem c7_file_picker_gate (s : ComponentState) (f : UploadFile) :
    (f.mimeType ≠ pdfMime →
      (handleFileChange s (some f)).formData.cv = s.formData.cv ∧
      (handleFileChange s (some f)).errors.cv =
        some "Only PDF files are allowed".data) ∧
    (f.mimeType = pdfMime →
      (handleFileChange s (some f)).formData.cv = some f ∧
      (handleFileChange s (some f)).errors.cv = some [] ∧
      displayedError (handleFileChange s (some f)).errors.cv = false) := by
  constructor
  · intro h; simp [handleFileChange, h]
  · intro h; simp [handleFileChange, h, displayedError]

/-- Witness for C7 at concrete inputs: a PNG file is rejected with the
message and does not displace a previously accepted PDF; a PDF file is
stored with the error cleared. -/
theorem c7_file_picker_gate_witness :
    (handleFileChange filledState (some pngFile)).formData.cv = some oldPdf ∧
    (handleFileChange filledState (some oldPdf)).formData.cv = some oldPdf :=
  ⟨((c7_file_picker_gate _ _).1 (by decide)).1,
   ((c7_file_picker_gate _ _).2 rfl).1⟩

/-- C9: rejecting a non-PDF selection is frame-preserving: the whole
`formData` (in particular a previously accepted PDF in its `cv` field),
the submission flags and every other error entry are untouched; only the
file error message is set, and the validator's verdict on the form data
is unchanged. -/
theorem c9_rejection_frame (s : ComponentState) (f : UploadFile)
    (h : f.mimeType ≠ pdfMime) :
    (handleFileChange s (some f)).formData = s.formData ∧
    (handleFileChange s (some f)).isSubmitting = s.isSubmitting ∧
    (handleFileChange s (some f)).analysisComplete = s.analysisComplete ∧
    (handleFileChange s (some f)).showCelebration = s.showCelebration ∧
    (handleFileChange s (some f)).isOpen = s.isOpen ∧
    (handleFileChange s (some f)).errors.name = s.errors.name ∧
    (handleFileChange s (some f)).errors.email = s.errors.email ∧
    (handleFileChange s (some f)).errors.jobDescription = s.errors.jobDescription ∧
    (handleFileChange s (some f)).errors.cv =
      some "Only PDF files are allowed".data ∧
    validateForm (handleFileChange s (some f)).formData =
      validateForm s.formData := by
  simp [handleFileChange, h]

/-- Witness for C9 at a concrete input: rejecting a PNG leaves the form
data of a filled state unchanged. -/
theorem c9_rejection_frame_witness :
    (handleFileChange filledState (some pngFile)).formData = filledFields :=
  (c9_rejection_frame _ _ (by decide)).1

/-- C10: the theme toggle maps the stored value `light` to `dark` and
every other string to `light`; toggling twice from `light` or `dark` is
the identity, and one toggle always lands in `{light, dark}`. -/
theorem c10_theme_toggle :
    toggleTheme "light".data = "dark".data ∧
    (∀ t : Str, t ≠ "light".data → toggleTheme t = "light".data) ∧
    (∀ t : Str, t = "light".data ∨ t = "dark".data →
      toggleTheme (toggleTheme t) = t) ∧
    (∀ t : Str, toggleTheme t = "light".data ∨ toggleTheme t = "dark".data) := by
  refine ⟨by decide, fun t h => ?_, fun t h => ?_, fun t => ?_⟩
  · rw [toggleTheme, if_neg h]
  · rcases h with rfl | rfl <;> decide
  · rw [toggleTheme]
    by_cases h : t = "light".data
    · rw [if_pos h]; right; rfl
    · rw [if_neg h]; left; rfl

/-- Witness for C10 at concrete inputs: a corrupted stored value toggles
to `light`, and a double toggle from `dark` returns to `dark`. -/
theorem c10_theme_toggle_witness :
    toggleTheme "weird".data = "light".data ∧
    toggleTheme (toggleTheme "dark".data) = "dark".data :=
  ⟨c10_theme_toggle.2.1 "weird".data (by decide),
   c10_theme_toggle.2.2.1 "dark".data (Or.inr rfl)⟩

theorem formVisible_not_submitting {c : ComponentState}
    (h : formVisible c = true) : c.isSubmitting = false := by
  unfold formVisible at h
  simp only [Bool.and_eq_true, Bool.not_eq_true'] at h
  exact h.2

theorem handleFileChange_flags (s : ComponentState) (f : Option UploadFile) :
    (handleFileChange s f).isSubmitting = s.isSubmitting ∧
    (handleFileChange s f).analysisComplete = s.analysisComplete ∧
    (handleFileChange s f).showCelebration = s.showCelebration ∧
    (handleFileChange s f).isOpen = s.isOpen := by
  cases f with
  | none => exact ⟨rfl, rfl, rfl, rfl⟩
  | some g => by_cases h : g.mimeType = pdfMime <;> simp [handleFileChange, h]

/-- C2 counterexample: a reachable state in which the user typed a name
and then closed the modal through the close button; the modal is closed
but the name field still holds the typed value instead of being
reset. -/
theorem c2_counterexample :
    (runEvents initState
      [FormEvent.reopen, FormEvent.editName "Ada".data,
        FormEvent.closeButton]).form.isOpen = false ∧
    (runEvents initState
      [FormEvent.reopen, FormEvent.editName "Ada".data,
        FormEvent.closeButton]).form.formData.name = "Ada".data ∧
    "Ada".data ≠ ([] : Str) := by
  decide

/-- C2 (amended): only the post-success reset button resets the four
fields (and the errors) while closing; the close button and the backdrop
click close the modal leaving the entered field values untouched. -/
theorem c2_close_reset_behavior (s : SystemState) :
    (s.form.isOpen = true → s.form.analysisComplete = true →
      s.form.showCelebration = true →
      (step s FormEvent.resetClick).form.formData = emptyFormFields ∧
      (step s FormEvent.resetClick).form.errors = noErrors ∧
      (step s FormEvent.resetClick).form.isOpen = false) ∧
    (step s FormEvent.closeButton).form.formData = s.form.formData ∧
    (step s FormEvent.backdropClose).form.formData = s.form.formData := by
  refine ⟨fun h1 h2 h3 => ?_, ?_, ?_⟩
  · simp [step, h1, h2, h3]
  · simp only [step]; split <;> rfl
  · simp only [step]; split <;> rfl

/-- Witness for the amended C2: from the concrete post-success state the
reset button clears the fields, while the close button from a filled
idle state preserves them. -/
theorem c2_close_reset_behavior_witness :
    (step doneState FormEvent.resetClick).form.formData = emptyFormFields ∧
    (step readyState FormEvent.closeButton).form.formData = filledFields :=
  ⟨((c2_close_reset_behavior doneState).1 rfl rfl rfl).1,
   (c2_close_reset_behavior readyState).2.1⟩

/-- C3: when the Validator reports at least one error (in particular
whenever the name is blank), a submit attempt issues no POST and leaves
the in-flight count unchanged, and (when the form is rendered) stores
the computed errors for display. -/
theorem c3_invalid_submit_no_post (s : SystemState)
    (h : (validateForm s.form.formData).isEmpty = false) :
    (step s FormEvent.submit).postCount = s.postCount ∧
    (step s FormEvent.submit).inFlight = s.inFlight ∧
    (formVisible s.form = true →
      (step s FormEvent.submit).form.errors = validateForm s.form.formData) ∧
    (∀ g : FormFields, jsTrim g.name = [] →
      (validateForm g).isEmpty = false) := by
  have hs : step s FormEvent.submit = s ∨
      step s FormEvent.submit =
        { s with form := { s.form with errors := validateForm s.form.formData } } := by
    simp only [step]
    split
    · rw [if_neg (by simp [h])]
      right; rfl
    · left; rfl
  refine ⟨?_, ?_, fun hvis => ?_, fun g hg => ?_⟩
  · rcases hs with hs | hs <;> rw [hs]
  · rcases hs with hs | hs <;> rw [hs]
  · have hns := formVisible_not_submitting hvis
    simp only [step]
    rw [if_pos (by simp [hvis, hns]), if_neg (by simp [h])]
  · simp [validateForm, ValidationErrors.isEmpty, hg]

/-- Witness for C3: submitting the untouched open form stores the
validation errors and issues no POST. -/
theorem c3_invalid_submit_no_post_witness :
    (step openEmptyState FormEvent.submit).postCount = 0 ∧
    (step openEmptyState FormEvent.submit).form.errors =
      validateForm openEmptyState.form.formData :=
  ⟨(c3_invalid_submit_no_post openEmptyState (by decide)).1,
   (c3_invalid_submit_no_post openEmptyState (by decide)).2.2.1 (by decide)⟩

/-- C4: the only transition that turns `isSubmitting` on is a submit
from a state whose current form data validates with an empty error
mapping; no event can enter the Submitting phase otherwise. -/
theorem c4_submitting_requires_valid (s : SystemState) (e : FormEvent)
    (h0 : s.form.isSubmitting = false)
    (h1 : (step s e).form.isSubmitting = true) :
    (validateForm s.form.formData).isEmpty = true := by
  cases e with
  | editName v => simp only [step] at h1; split at h1 <;> simp [h0] at h1
  | editEmail v => simp only [step] at h1; split at h1 <;> simp [h0] at h1
  | editJob v => simp only [step] at h1; split at h1 <;> simp [h0] at h1
  | fileSelect f =>
    simp only [step] at h1
    split at h1 <;>
      simp [(handleFileChange_flags s.form f).1, h0] at h1
  | submit =>
    simp only [step] at h1
    split at h1
    · split at h1
      · assumption
      · simp [h0] at h1
    · simp [h0] at h1
  | respondOk =>
    simp only [step] at h1; split at h1 <;> simp [h0] at h1
  | respondFail =>
    simp only [step] at h1; split at h1 <;> simp [h0] at h1
  | closeButton =>
    simp only [step] at h1; split at h1 <;> simp [h0] at h1
  | backdropClose =>
    simp only [step] at h1; split at h1 <;> simp [h0] at h1
  | resetClick =>
    simp only [step] at h1; split at h1 <;> simp [h0] at h1
  | reopen =>
    simp only [step] at h1; simp [h0] at h1

/-- Witness for C4: the concrete valid submit from `readyState` enters
Submitting, so its form data must validate cleanly. -/
theorem c4_submitting_requires_valid_witness :
    (validateForm readyState.form.formData).isEmpty = true :=
  c4_submitting_requires_valid readyState FormEvent.submit (by decide) (by decide)

/-- C5: from any rendered form whose data is fully valid, a submit
followed by a failed response (non-2xx or network fault) issues exactly
one POST, returns the phase to Idle, appends the failure toast, and
leaves all four entered field values exactly as they were before the
attempt. -/
theorem c5_failure_recovery (s : SystemState)
    (hvis : formVisible s.form = true)
    (hvalid : (validateForm s.form.formData).isEmpty = true) :
    (step (step s FormEvent.submit) FormEvent.respondFail).form.isSubmitting = false ∧
    (step (step s FormEvent.submit) FormEvent.respondFail).form.formData =
      s.form.formData ∧
    (step (step s FormEvent.submit) FormEvent.respondFail).toasts =
      s.toasts ++ [ToastKind.failure] ∧
    (step s FormEvent.submit).postCount = s.postCount + 1 := by
  have hns := formVisible_not_submitting hvis
  have h1 : step s FormEvent.submit =
      { s with
        form :=
          { s.form with
            errors := validateForm s.form.formData, isSubmitting := true },
        inFlight := s.inFlight + 1, postCount := s.postCount + 1 } := by
    simp only [step]
    rw [if_pos (by simp [hvis, hns]), if_pos hvalid]
  rw [h1]
  simp only [step]
  split
  · constructor
    on_goal 2 => constructor
    on_goal 3 => constructor
    all_goals first | rfl | trivial
  · next hneg => simp at hneg

/-- Witness for C5: the concrete valid submit from `readyState` followed
by a failure keeps the entered data and returns to Idle. -/
theorem c5_failure_recovery_witness :
    (step (step readyState FormEvent.submit) FormEvent.respondFail).form.formData =
      filledFields ∧
    (step (step readyState FormEvent.submit) FormEvent.respondFail).form.isSubmitting =
      false :=
  ⟨(c5_failure_recovery readyState (by decide) (by decide)).2.1,
   (c5_failure_recovery readyState (by decide) (by decide)).1⟩

theorem singleFlightInv_step (s : SystemState) (e : FormEvent)
    (h : singleFlightInv s) : singleFlightInv (step s e) := by
  obtain ⟨i1, i2, i3, i4⟩ := h
  cases e with
  | editName v => simp only [step]; split <;> exact ⟨i1, i2, i3, i4⟩
  | editEmail v => simp only [step]; split <;> exact ⟨i1, i2, i3, i4⟩
  | editJob v => simp only [step]; split <;> exact ⟨i1, i2, i3, i4⟩
  | fileSelect f =>
    simp only [step]
    split
    · obtain ⟨f1, f2, f3, f4⟩ := handleFileChange_flags s.form f
      refine ⟨i1, ?_, ?_, ?_⟩
      · show (handleFileChange s.form f).isSubmitting = false → _
        rw [f1]; exact i2
      · show (handleFileChange s.form f).analysisComplete = true → _
        rw [f2]; exact i3
      · show (handleFileChange s.form f).analysisComplete =
          (handleFileChange s.form f).showCelebration
        rw [f2, f3]; exact i4
    · exact ⟨i1, i2, i3, i4⟩
  | submit =>
    simp only [step]
    split
    · next hcond =>
      have hns : s.form.isSubmitting = false := by
        simp only [Bool.and_eq_true, Bool.not_eq_true'] at hcond
        exact hcond.2
      have hac : s.form.analysisComplete = false := by
        simp only [Bool.and_eq_true, Bool.not_eq_true'] at hcond
        have hv := hcond.1
        unfold formVisible at hv
        simp only [Bool.and_eq_true, Bool.not_eq_true'] at hv
        cases hb : s.form.analysisComplete
        · rfl
        · exfalso
          have hab := hv.1.2
          rw [hb, ← i4, hb] at hab
          simp at hab
      have hifz : s.inFlight = 0 := i2 hns
      split
      · refine ⟨?_, ?_, ?_, i4⟩
        · show s.inFlight + 1 ≤ 1
          omega
        · intro hff; simp at hff
        · intro hx
          rw [hac] at hx
          simp at hx
      · exact ⟨i1, i2, i3, i4⟩
    · exact ⟨i1, i2, i3, i4⟩
  | respondOk =>
    simp only [step]
    split
    · next hpos =>
      refine ⟨?_, fun hx => ?_, fun hx => ?_, rfl⟩
      · show s.inFlight - 1 ≤ 1
        omega
      · show s.inFlight - 1 = 0
        omega
      · show s.inFlight - 1 = 0
        omega
    · exact ⟨i1, i2, i3, i4⟩
  | respondFail =>
    simp only [step]
    split
    · next hpos =>
      refine ⟨?_, fun hx => ?_, fun hx => ?_, i4⟩
      · show s.inFlight - 1 ≤ 1
        omega
      · show s.inFlight - 1 = 0
        omega
      · have h3 := i3 hx
        show s.inFlight - 1 = 0
        omega
    · exact ⟨i1, i2, i3, i4⟩
  | closeButton =>
    simp only [step]; split <;> exact ⟨i1, i2, i3, i4⟩
  | backdropClose =>
    simp only [step]; split <;> exact ⟨i1, i2, i3, i4⟩
  | resetClick =>
    simp only [step]
    split
    · next hcond =>
      simp only [Bool.and_eq_true] at hcond
      have hz := i3 hcond.1.2
      refine ⟨i1, fun hx => hz, fun hx => ?_, rfl⟩
      simp at hx
    · exact ⟨i1, i2, i3, i4⟩
  | reopen => exact ⟨i1, i2, i3, i4⟩

theorem runEvents_singleFlightInv (evs : List FormEvent) :
    ∀ s : SystemState, singleFlightInv s → singleFlightInv (runEvents s evs) := by
  induction evs with
  | nil => exact fun s h => h
  | cons e evs ih => exact fun s h => ih (step s e) (singleFlightInv_step s e h)

theorem reachable_singleFlightInv (s : SystemState) (h : Reachable s) :
    singleFlightInv s := by
  obtain ⟨evs, rfl⟩ := h
  exact runEvents_singleFlightInv evs initState ⟨by decide, fun _ => rfl, fun _ => rfl, rfl⟩

/-- C8: in every reachable state at most one POST is in flight, and
while the phase is Submitting a further submit trigger is a no-op (in
particular it issues no second POST). -/
theorem c8_single_flight (s : SystemState) (hr : Reachable s) :
    s.inFlight ≤ 1 ∧
    (s.form.isSubmitting = true → step s FormEvent.submit = s) := by
  refine ⟨(reachable_singleFlightInv s hr).1, fun hsub => ?_⟩
  simp [step, hsub]

/-- Witness for C8: after the concrete valid submit sequence, one POST
is in flight and a second submit changes nothing. -/
theorem c8_single_flight_witness :
    (runEvents initState validFillEvents).inFlight ≤ 1 ∧
    step (runEvents initState validFillEvents) FormEvent.submit =
      runEvents initState validFillEvents :=
  ⟨(c8_single_flight _ ⟨validFillEvents, rfl⟩).1,
   (c8_single_flight _ ⟨validFillEvents, rfl⟩).2 (by decide)⟩
